import Mathlib

/-!
Shallow embedding of the azure-gcp-dr-orchestrator core:
`src/python/orchestrator/failover_coordinator.py` (step engine, trigger,
watchdog, cleanup), `src/python/orchestrator/orchestrator_engine.py`
(decision evaluation, failover execution) and the health aggregation of
`src/cloud-functions/main.py` (`execute_comprehensive_health_check`).

Python floats are modelled as rationals, wall-clock time as a natural
number of seconds threaded explicitly, and the external cloud calls of a
step as an oracle (`StepEnv`) giving each attempt of each step an outcome.
-/

namespace DROrch

/-- Mirror of the `FailoverStep` dataclass (failover_coordinator.py, lines 20-27). -/
structure FailoverStep where
  name : String
  description : String
  timeout_seconds : Nat
  retry_count : Nat := 3
  critical : Bool := true
deriving DecidableEq, Repr

/-- The hardcoded Azure-to-GCP step sequence (failover_coordinator.py, lines 49-58). -/
def azure_to_gcp_steps : List FailoverStep :=
  [ ⟨"validate_gcp_readiness", "Validate GCP environment readiness", 60, 3, true⟩,
    ⟨"create_gcp_resources", "Provision GCP resources if needed", 300, 3, true⟩,
    ⟨"sync_final_data", "Perform final data synchronization", 120, 3, true⟩,
    ⟨"switch_database_primary", "Switch database primary to GCP", 180, 3, true⟩,
    ⟨"start_gke_services", "Start GKE cluster and services", 240, 3, true⟩,
    ⟨"update_dns_routing", "Update DNS routing to GCP", 60, 3, true⟩,
    ⟨"validate_gcp_traffic", "Validate traffic flow to GCP", 120, 3, true⟩,
    ⟨"stop_azure_services", "Gracefully stop Azure services", 180, 3, true⟩ ]

/-- The hardcoded GCP-to-Azure step sequence (failover_coordinator.py, lines 60-69). -/
def gcp_to_azure_steps : List FailoverStep :=
  [ ⟨"validate_azure_readiness", "Validate Azure environment readiness", 60, 3, true⟩,
    ⟨"create_azure_resources", "Provision Azure resources if needed", 300, 3, true⟩,
    ⟨"sync_final_data", "Perform final data synchronization", 120, 3, true⟩,
    ⟨"switch_database_primary", "Switch database primary to Azure", 180, 3, true⟩,
    ⟨"start_aks_services", "Start AKS cluster and services", 240, 3, true⟩,
    ⟨"update_dns_routing", "Update DNS routing to Azure", 60, 3, true⟩,
    ⟨"validate_azure_traffic", "Validate traffic flow to Azure", 120, 3, true⟩,
    ⟨"stop_gcp_services", "Gracefully stop GCP services", 180, 3, true⟩ ]

/-- Outcome of one attempt of one step, as observed inside `_execute_single_step`:
the dispatched handler either returned `{"success": True, ...}`, returned
`{"success": False, "error": msg}`, raised `asyncio.TimeoutError`, or raised
some other exception rendered as `msg`. -/
inductive AttemptOutcome where
  | ok
  | err (msg : String)
  | timeoutExc
  | exc (msg : String)
deriving DecidableEq, Repr

/-- Oracle for the external cloud calls: for each step name and 0-indexed attempt,
the outcome of the dispatched handler and the wall-clock seconds it consumed. -/
structure StepEnv where
  outcome : String → Nat → AttemptOutcome
  attemptTime : String → Nat → Nat

/-- The dict returned by `_execute_single_step`: `duration` is present only on the
return paths that put a `"duration"` key in the dict (success, and handler-reported
failure on the last attempt; the exception and timeout paths omit it). -/
structure StepResult where
  success : Bool
  error : Option String := none
  duration : Option Nat := none
deriving DecidableEq, Repr

/-- Observable record of one `_execute_single_step` call: the returned dict, the
wall clock when it returned, how many handler invocations happened, and the
sequence of backoff sleeps performed between attempts. -/
structure StepExec where
  result : StepResult
  endTime : Nat
  attempts : Nat
  delays : List Nat
deriving DecidableEq, Repr

/-- The retry loop of `_execute_single_step` (failover_coordinator.py, lines 346-398):
`attempt` is the current 0-indexed attempt, the first `Nat` argument the number of
loop iterations left, the second the current wall clock.  `start` is the clock at
step entry, used for the `"duration"` values.  Exhausting the loop without an
attempt (only possible when `retry_count = 0`) returns `"Max retries exceeded"`. -/
def execStepFrom (env : StepEnv) (s : FailoverStep) (start : Nat) (attempt : Nat) :
    Nat → Nat → StepExec
  | 0, now => ⟨⟨false, some "Max retries exceeded", none⟩, now, 0, []⟩
  | r + 1, now =>
    let now1 := now + env.attemptTime s.name attempt
    match env.outcome s.name attempt with
    | .ok => ⟨⟨true, none, some (now1 - start)⟩, now1, 1, []⟩
    | .err m =>
      if r = 0 then ⟨⟨false, some m, some (now1 - start)⟩, now1, 1, []⟩
      else
        let rest := execStepFrom env s start (attempt + 1) r (now1 + 2 ^ attempt)
        ⟨rest.result, rest.endTime, rest.attempts + 1, 2 ^ attempt :: rest.delays⟩
    | .timeoutExc =>
      if r = 0 then ⟨⟨false, some "Step timeout", none⟩, now1, 1, []⟩
      else
        let rest := execStepFrom env s start (attempt + 1) r (now1 + 2 ^ attempt)
        ⟨rest.result, rest.endTime, rest.attempts + 1, 2 ^ attempt :: rest.delays⟩
    | .exc m =>
      if r = 0 then ⟨⟨false, some m, none⟩, now1, 1, []⟩
      else
        let rest := execStepFrom env s start (attempt + 1) r (now1 + 2 ^ attempt)
        ⟨rest.result, rest.endTime, rest.attempts + 1, 2 ^ attempt :: rest.delays⟩

/-- `_execute_single_step(step, ...)` entered at wall clock `now`. -/
def execSingleStep (env : StepEnv) (s : FailoverStep) (now : Nat) : StepExec :=
  execStepFrom env s now 0 s.retry_count now

/-- Whether a step succeeds under the oracle; by `execStepFrom_time_inv` below this
does not depend on the clock at which the step is entered. -/
def stepOk (env : StepEnv) (s : FailoverStep) : Bool :=
  (execSingleStep env s 0).result.success

/-- Entry of the run's `steps_completed` list (step name, timestamp, duration). -/
structure StepDone where
  step : String
  timestamp : Nat
  duration : Option Nat
deriving DecidableEq, Repr

/-- Entry of the run's `steps_failed` list (step name, timestamp, error). -/
structure StepFail where
  step : String
  timestamp : Nat
  error : Option String
deriving DecidableEq, Repr

/-- The `current_failover` dict created by the trigger methods
(failover_coordinator.py, lines 192-200 resp. 253-261). -/
structure FailoverRun where
  id : String
  ftype : String
  start_time : Nat
  end_time : Option Nat := none
  steps_completed : List StepDone := []
  steps_failed : List StepFail := []
  current_step : Option String := none
  status : String := "in_progress"
deriving DecidableEq, Repr

/-- The dict returned by `_execute_failover_steps`: on success
`{"success": True, "steps_completed": n}`, on critical failure
`{"success": False, "error": ..., "failed_step": ...}`. -/
structure StepsResult where
  success : Bool
  error : Option String := none
  failed_step : Option String := none
  steps_completed_count : Option Nat := none
deriving DecidableEq, Repr

/-- `_execute_failover_steps` (failover_coordinator.py, lines 299-340): walk the
step list, record each outcome on the run, stop at the first failed critical
step; a failed non-critical step is recorded and the walk continues. -/
def execFailoverSteps (env : StepEnv) :
    List FailoverStep → FailoverRun → Nat → StepsResult × FailoverRun × Nat
  | [], run, now =>
    ({ success := true, steps_completed_count := some run.steps_completed.length }, run, now)
  | s :: rest, run, now =>
    let run1 := { run with current_step := some s.name }
    let ex := execSingleStep env s now
    if ex.result.success then
      let run2 := { run1 with
        steps_completed := run1.steps_completed ++ [⟨s.name, ex.endTime, ex.result.duration⟩] }
      execFailoverSteps env rest run2 ex.endTime
    else
      let run2 := { run1 with
        steps_failed := run1.steps_failed ++ [⟨s.name, ex.endTime, ex.result.error⟩] }
      if s.critical then
        ({ success := false,
           error := some ("Critical step failed: " ++ s.name),
           failed_step := some s.name }, run2, ex.endTime)
      else
        execFailoverSteps env rest run2 ex.endTime

/-- Coordinator state: the `current_failover` slot (the `failover_lock` serialises
the trigger methods, so each trigger acts atomically on this state). -/
structure Coordinator where
  current_failover : Option FailoverRun
deriving DecidableEq, Repr

/-- The dict returned by the trigger methods: either the `AlreadyInProgress`
failure (with the active run's id), or the result of `_execute_failover_steps`. -/
structure TriggerResult where
  success : Bool
  error : Option String := none
  current_failover_id : Option String := none
  steps_completed_count : Option Nat := none
  failed_step : Option String := none
deriving DecidableEq, Repr

/-- The final-status update of the trigger methods (failover_coordinator.py,
lines 206-210): `status = "completed" if result["success"] else "failed"`,
plus `end_time`. -/
def finalizeRun (run : FailoverRun) (success : Bool) (now : Nat) : FailoverRun :=
  { run with status := if success then "completed" else "failed", end_time := some now }

/-- `trigger_failover_to_gcp` / `trigger_failover_to_azure`
(failover_coordinator.py, lines 177-236 and 238-297), as the atomic action the
`failover_lock` serialises: if a `current_failover` exists, return the
`AlreadyInProgress` failure untouched; otherwise create the run, execute the
steps and finalize.  `direction` is `"azure_to_gcp"` or `"gcp_to_azure"`. -/
def triggerFailover (env : StepEnv) (direction : String) (steps : List FailoverStep)
    (now : Nat) (c : Coordinator) : TriggerResult × Coordinator × Nat :=
  match c.current_failover with
  | some r =>
    ({ success := false, error := some "Failover already in progress",
       current_failover_id := some r.id }, c, now)
  | none =>
    let run0 : FailoverRun :=
      { id := direction ++ "_" ++ toString now, ftype := direction, start_time := now }
    let out := execFailoverSteps env steps run0 now
    let res := out.1
    let run' := finalizeRun out.2.1 res.success out.2.2
    (⟨res.success, res.error, none, res.steps_completed_count, res.failed_step⟩,
     ⟨some run'⟩, out.2.2)

/-- `trigger_failover_to_gcp`, with the hardcoded Azure-to-GCP sequence. -/
def triggerFailoverToGcp (env : StepEnv) (now : Nat) (c : Coordinator) :
    TriggerResult × Coordinator × Nat :=
  triggerFailover env "azure_to_gcp" azure_to_gcp_steps now c

/-- `trigger_failover_to_azure`, with the hardcoded GCP-to-Azure sequence. -/
def triggerFailoverToAzure (env : StepEnv) (now : Nat) (c : Coordinator) :
    TriggerResult × Coordinator × Nat :=
  triggerFailover env "gcp_to_azure" gcp_to_azure_steps now c

/-- `_monitor_active_failovers` (failover_coordinator.py, lines 617-624): mark an
in-progress run `"timeout"` once it has been running strictly longer than 30
minutes; no other effect. -/
def monitorActiveFailovers (c : Coordinator) (now : Nat) : Coordinator :=
  match c.current_failover with
  | some r =>
    if r.status = "in_progress" ∧ 1800 < now - r.start_time then
      ⟨some { r with status := "timeout" }⟩
    else c
  | none => c

/-- `_cleanup_completed_failovers` (failover_coordinator.py, lines 626-637):
clear `current_failover` once its status is terminal. -/
def cleanupCompletedFailovers (c : Coordinator) : Coordinator :=
  match c.current_failover with
  | some r =>
    if ["completed", "failed", "error", "timeout"].contains r.status then ⟨none⟩ else c
  | none => c

/-! ### Orchestrator engine (orchestrator_engine.py) -/

/-- Mirror of the `DrState` enum (orchestrator_engine.py, lines 19-26). -/
inductive DrState where
  | activeAzure
  | activeGcp
  | failoverInProgress
  | rollbackInProgress
  | maintenance
  | error
deriving DecidableEq, Repr

/-- Mirror of the `FailoverReason` enum (orchestrator_engine.py, lines 28-35). -/
inductive FailoverReason where
  | azureRegionOutage
  | azureServiceDegradation
  | manualTrigger
  | scheduledMaintenance
  | dataCorruptionDetected
  | networkConnectivityLoss
deriving DecidableEq, Repr

/-- Per-environment slice of the `health_status` dict built by
`_assess_overall_health` (orchestrator_engine.py, lines 189-204): `sql_available`
is the `sql_mi_available` / `cloud_sql_available` key, `cluster_available` the
`aks_available` / `gke_available` key of the respective environment. -/
structure EnvHealth where
  overall_score : ℚ
  sql_available : Bool
  cluster_available : Bool
  region_status : String
  network_latency : ℚ
deriving DecidableEq, Repr

/-- The `striim` slice of the `health_status` dict (lines 205-209). -/
structure StriimHealth where
  cdc_pipeline_active : Bool
  replication_lag_seconds : ℚ
  data_consistency_score : ℚ
deriving DecidableEq, Repr

/-- The composite `health_status` dict consumed by `_evaluate_failover_decision`. -/
structure HealthStatus where
  azure : EnvHealth
  gcp : EnvHealth
  striim : StriimHealth
deriving DecidableEq, Repr

/-- Record appended to `failover_history` by `_record_failover_metrics`
(orchestrator_engine.py, lines 437-446), restricted to the fields that feed
back into engine state (`duration_seconds`, `success`). -/
structure FailoverRecord where
  duration_seconds : ℚ
  success : Bool
deriving DecidableEq, Repr

/-- Mutable engine state of `DrOrchestratorEngine`: `current_state`,
`failover_in_progress`, the `state_metadata` fields that influence behaviour
(`avg_failover_time`, `total_failovers`, `last_failover_time`), the failover
history, `rollback_checkpoints` (only its length matters here) and the
configured `rto_target`. -/
structure EngineState where
  current_state : DrState
  failover_in_progress : Bool
  avg_failover_time : ℚ
  total_failovers : Nat
  last_failover_time : Option Nat
  failover_history : List FailoverRecord
  rollback_checkpoints_count : Nat
  rto_target : Int
deriving DecidableEq, Repr

/-- Reason carried by a `FailoverDecision`: a `FailoverReason` enum member, the
`f"performance_degradation: Replication lag: {lag}s"` string (kept as its
determining lag value), or the rollback reason string. -/
inductive Reason where
  | fr (r : FailoverReason)
  | performanceDegradation (lag : ℚ)
  | primaryEnvironmentRecovered
deriving DecidableEq, Repr

/-- The `decision` dict of `_evaluate_failover_decision` (lines 221-228). -/
structure FailoverDecision where
  should_failover : Bool := false
  should_rollback : Bool := false
  target_environment : Option String := none
  reason : Option Reason := none
  confidence_score : ℚ := 0
  estimated_rto : Int := 0
deriving DecidableEq, Repr

/-- `_detect_critical_failures` (orchestrator_engine.py, lines 274-311): the four
hardcoded conditions on the currently active environment, first match wins.
`health_thresholds["network_latency_ms"]` is the hardcoded 500. -/
def detectCriticalFailures (st : DrState) (h : HealthStatus) :
    Option (FailoverReason × ℚ) :=
  let envh := if st = DrState.activeAzure then h.azure else h.gcp
  if envh.overall_score < 1/2 then some (.azureServiceDegradation, 9/10)
  else if !envh.sql_available then some (.azureServiceDegradation, 95/100)
  else if envh.region_status = "outage" then some (.azureRegionOutage, 99/100)
  else if envh.network_latency > 500 then some (.networkConnectivityLoss, 8/10)
  else none

/-- `_detect_performance_degradation` (lines 313-325): replication lag above the
hardcoded 30-second threshold yields severity `"critical"` with confidence 0.85. -/
def detectPerformanceDegradation (h : HealthStatus) : Option (String × ℚ × ℚ) :=
  if h.striim.replication_lag_seconds > 30 then
    some ("critical", h.striim.replication_lag_seconds, 85/100)
  else none

/-- `_evaluate_rollback_conditions` (lines 327-345): skipped only when
`current_state == ACTIVE_AZURE`; otherwise signals rollback when Azure has
score above 0.95, SQL MI and AKS available, and a healthy region. -/
def evaluateRollbackConditions (st : DrState) (h : HealthStatus) :
    Option (Reason × ℚ) :=
  if st = DrState.activeAzure then none
  else if h.azure.overall_score > 95/100 ∧ h.azure.sql_available
          ∧ h.azure.cluster_available ∧ h.azure.region_status = "healthy" then
    some (.primaryEnvironmentRecovered, 9/10)
  else none

/-- `_estimate_failover_time` (lines 469-474): the stored average when positive,
otherwise the configured RTO target.  The `int()` truncation is `Rat.floor`
(the average is a non-negative mean of non-negative durations). -/
def estimateFailoverTime (e : EngineState) : Int :=
  if 0 < e.avg_failover_time then ⌊e.avg_failover_time⌋ else e.rto_target

/-- `_evaluate_failover_decision` (orchestrator_engine.py, lines 219-272):
no-op while `failover_in_progress`; then critical failures, then performance
degradation (acted on only with severity `"critical"`), then rollback. -/
def evaluateFailoverDecision (e : EngineState) (h : HealthStatus) : FailoverDecision :=
  if e.failover_in_progress then {}
  else
    let target : String := if e.current_state = DrState.activeAzure then "gcp" else "azure"
    match detectCriticalFailures e.current_state h with
    | some (reason, conf) =>
      { should_failover := true, target_environment := some target,
        reason := some (.fr reason), confidence_score := conf,
        estimated_rto := estimateFailoverTime e }
    | none =>
      match detectPerformanceDegradation h with
      | some (sev, lag, conf) =>
        if sev = "critical" then
          { should_failover := true, target_environment := some target,
            reason := some (.performanceDegradation lag), confidence_score := conf,
            estimated_rto := estimateFailoverTime e }
        else
          match evaluateRollbackConditions e.current_state h with
          | some (reason, conf) =>
            { should_rollback := true, reason := some reason, confidence_score := conf }
          | none => {}
      | none =>
        match evaluateRollbackConditions e.current_state h with
        | some (reason, conf) =>
          { should_rollback := true, reason := some reason, confidence_score := conf }
        | none => {}

/-- `_record_failover_metrics` (orchestrator_engine.py, lines 435-467): append to
the history; on success bump `total_failovers`, set `last_failover_time` and
recompute `avg_failover_time` over the successful history entries. -/
def recordFailoverMetrics (e : EngineState) (now : Nat) (duration : ℚ)
    (success : Bool) : EngineState :=
  let hist := e.failover_history ++ [⟨duration, success⟩]
  let e1 := { e with failover_history := hist }
  if success then
    let succs := hist.filter (·.success)
    let total : ℚ := (succs.map (·.duration_seconds)).sum
    { e1 with
      total_failovers := e1.total_failovers + 1,
      last_failover_time := some now,
      avg_failover_time := total / (max succs.length 1 : ℚ) }
  else e1

/-- What the `try` body of `_execute_failover` observes from its awaited calls:
either the coordinator trigger returned a result dict, or some call inside the
`try` raised (caught by the blanket `except`). -/
inductive CoordOutcome where
  | returns (success : Bool) (error : Option String)
  | raises (msg : String)
deriving DecidableEq, Repr

/-- `_execute_failover` (orchestrator_engine.py, lines 347-387): set the flag and
`FAILOVER_IN_PROGRESS`, run the coordinator trigger; on success adopt the
target's active state and record metrics with the elapsed time, on failure
revert to the saved pre-run state and record a zero-duration failure, on an
exception set `ERROR` and record a zero-duration failure; the `finally` block
clears the flag on every path.  `duration` is the elapsed wall time of the
successful run, `now` the clock used for the metrics timestamps. -/
def executeFailover (e : EngineState) (target : String) (out : CoordOutcome)
    (now : Nat) (duration : ℚ) : EngineState :=
  let old := e.current_state
  let e1 := { e with failover_in_progress := true,
                     current_state := DrState.failoverInProgress }
  let e2 :=
    match out with
    | .returns true _ =>
      let e' := { e1 with current_state :=
        if target = "gcp" then DrState.activeGcp else DrState.activeAzure }
      recordFailoverMetrics e' now duration true
    | .returns false _ =>
      let e' := { e1 with current_state := old }
      recordFailoverMetrics e' now 0 false
    | .raises _ =>
      let e' := { e1 with current_state := DrState.error }
      recordFailoverMetrics e' now 0 false
  { e2 with failover_in_progress := false }

/-! ### Health aggregation (src/cloud-functions/main.py) -/

/-- The hardcoded critical-service list of `execute_comprehensive_health_check`
(cloud-functions/main.py, line 384): primary DB, secondary DB, replication
pipeline. -/
def critical_services : List String := ["azure_sql_mi", "gcp_cloud_sql", "striim_cdc"]

/-- One health-check result as consumed by the aggregation: the `service` name
and its `health_score`. -/
structure ServiceHealth where
  service : String
  health_score : ℚ
deriving DecidableEq, Repr

/-- The per-service weight (line 394): 0.3 for critical services, 0.1 otherwise. -/
def serviceWeight (name : String) : ℚ :=
  if critical_services.contains name then 3/10 else 1/10

/-- The aggregation of `execute_comprehensive_health_check` (cloud-functions/
main.py, lines 383-400): `results` is the `asyncio.gather` output, one entry
per launched check, `none` standing for an entry that is an exception (skipped
by the `isinstance` guard).  The sum runs over the non-exception entries; the
normalising `total_weight` is computed from `len(health_results)` and
`len(critical_services)`, independent of which entries were exceptions. -/
def overallHealthScore (results : List (Option ServiceHealth)) : ℚ :=
  let score := results.foldl (fun acc r =>
    match r with
    | none => acc
    | some sh => acc + sh.health_score * serviceWeight sh.service) 0
  let total_weight : ℚ :=
    (critical_services.length : ℚ) * (3/10)
      + ((results.length : ℚ) - (critical_services.length : ℚ)) * (1/10)
  if 0 < total_weight then score / total_weight else 0

/-- The five checks launched by `execute_comprehensive_health_check`
(lines 370-376), each of which returns a result dict on every path (their
`except` branches return a `health_score: 0.0` dict), with the given scores. -/
def healthResults (a b c d e : ℚ) : List (Option ServiceHealth) :=
  [ some ⟨"azure_sql_mi", a⟩, some ⟨"gcp_cloud_sql", b⟩, some ⟨"striim_cdc", c⟩,
    some ⟨"azure_aks", d⟩, some ⟨"gcp_gke", e⟩ ]

/-! ### Lock-serialised trigger sequences and the lock-wait process model -/

/-- A sequence of trigger attempts admitted one at a time by the
`failover_lock` (the lock serialises the bodies of the trigger methods);
`times` gives each attempt's entry clock. -/
def runAttempts (env : StepEnv) (direction : String) (steps : List FailoverStep) :
    List Nat → Coordinator → List TriggerResult × Coordinator
  | [], c => ([], c)
  | t :: ts, c =>
    let out := triggerFailover env direction steps t c
    let rest := runAttempts env direction steps ts out.2.1
    (out.1 :: rest.1, rest.2)

/-- Local phase of one trigger coroutine relative to the `failover_lock`:
still awaiting `async with self.failover_lock`, holding the lock about to read
`current_failover`, proceeding to start a run, or returned with a result. -/
inductive TriggerPhase where
  | waiting
  | checking
  | startedRun
  | finished (res : TriggerResult)
deriving DecidableEq, Repr

/-- Configuration of one late trigger attempt: whether the `failover_lock` is
currently held (by the in-flight run's trigger, which holds it for the whole
run), the `current_failover` slot, and the late attempt's phase. -/
structure LateConf where
  lockHeld : Bool
  active : Option FailoverRun
  phase : TriggerPhase
deriving DecidableEq, Repr

/-- The steps the late trigger attempt can take on its own, per the code of the
trigger methods: acquire the lock only when it is free; holding the lock, read
`current_failover` and either return the `AlreadyInProgress` failure (releasing
the lock on exit from `async with`) or, if no run exists, proceed to start one. -/
inductive LateStep : LateConf → LateConf → Prop
  | acquire (a : Option FailoverRun) :
      LateStep ⟨false, a, .waiting⟩ ⟨true, a, .checking⟩
  | finishBusy (r : FailoverRun) :
      LateStep ⟨true, some r, .checking⟩
        ⟨false, some r,
         .finished ⟨false, some "Failover already in progress", some r.id, none, none⟩⟩
  | proceed :
      LateStep ⟨true, none, .checking⟩ ⟨true, none, .startedRun⟩

/-- System steps: the late attempt's own steps, plus the lock holder finishing
the active run and releasing the `failover_lock`. -/
inductive SysStep : LateConf → LateConf → Prop
  | late {c c' : LateConf} : LateStep c c' → SysStep c c'
  | release (a : Option FailoverRun) (p : TriggerPhase) :
      SysStep ⟨true, a, p⟩ ⟨false, a, p⟩

/-! ### Concrete instantiations for witnesses and counterexamples -/

/-- Oracle under which every attempt of every step raises an exception `"boom"`. -/
def envExcAll : StepEnv := ⟨fun _ _ => .exc "boom", fun _ _ => 1⟩

/-- Oracle under which every attempt of every step returns a failure dict with
error `"nope"`. -/
def envErrAll : StepEnv := ⟨fun _ _ => .err "nope", fun _ _ => 1⟩

/-- Oracle under which the step named `"flaky"` always fails with `"down"` and
every other step succeeds. -/
def envMixed : StepEnv :=
  ⟨fun name _ => if name = "flaky" then .err "down" else .ok, fun _ _ => 1⟩

/-- A three-retry critical step used in concrete instantiations. -/
def stepS1 : FailoverStep := ⟨"s1", "demo step", 60, 3, true⟩

/-- A critical step named `"flaky"` (fails under `envMixed`). -/
def stepFlakyCrit : FailoverStep := ⟨"flaky", "flaky step", 60, 3, true⟩

/-- A non-critical step named `"flaky"` (fails under `envMixed`). -/
def stepFlakyNC : FailoverStep := ⟨"flaky", "flaky step", 60, 3, false⟩

/-- A critical step named `"s2"` (succeeds under `envMixed`). -/
def stepS2 : FailoverStep := ⟨"s2", "demo step", 60, 3, true⟩

/-- A fresh in-progress run started at clock 0. -/
def runDemo : FailoverRun :=
  { id := "azure_to_gcp_0", ftype := "azure_to_gcp", start_time := 0 }

/-- Engine state: active on Azure, no failover history (`avg_failover_time = 0`),
RTO target 300 s. -/
def engineA : EngineState := ⟨.activeAzure, false, 0, 0, none, [], 0, 300⟩

/-- Engine state identical to `engineA` in `current_state` and
`failover_in_progress`, but with one successful 120-second failover in its
history (`avg_failover_time = 120`). -/
def engineB : EngineState := ⟨.activeAzure, false, 120, 1, some 0, [⟨120, true⟩], 1, 300⟩

/-- Engine state agreeing with `engineA` on `current_state`,
`failover_in_progress`, `avg_failover_time` and `rto_target`, but differing in
history, counters and checkpoints. -/
def engineC : EngineState :=
  ⟨.activeAzure, false, 0, 3, some 9, [⟨7, false⟩, ⟨8, false⟩], 5, 300⟩

/-- Engine state failed over to GCP, no failover in progress. -/
def engineGcp : EngineState := ⟨.activeGcp, false, 0, 0, none, [], 0, 300⟩

/-- Engine state in MAINTENANCE, no failover in progress. -/
def engineMaint : EngineState := ⟨.maintenance, false, 0, 0, none, [], 0, 300⟩

/-- Health snapshot with the active Azure environment degraded
(`overall_score = 0.3`) and everything else healthy. -/
def healthLowAzure : HealthStatus :=
  ⟨⟨3/10, true, true, "healthy", 10⟩, ⟨1, true, true, "healthy", 10⟩, ⟨true, 0, 1⟩⟩

/-- Health snapshot with Azure fully recovered (`overall_score = 0.97`, all
subsystems available, region healthy) and GCP healthy. -/
def healthRecovered : HealthStatus :=
  ⟨⟨97/100, true, true, "healthy", 10⟩, ⟨1, true, true, "healthy", 10⟩, ⟨true, 0, 1⟩⟩

/-! ### Lemmas about the step retry loop -/

/-- Everything about a step execution except its clock values (`endTime`, the
`duration` entries) is independent of the clock at which the step is entered. -/
lemma execStepFrom_time_inv (env : StepEnv) (s : FailoverStep) :
    ∀ r a start now start' now',
      (execStepFrom env s start a r now).result.success
          = (execStepFrom env s start' a r now').result.success
      ∧ (execStepFrom env s start a r now).result.error
          = (execStepFrom env s start' a r now').result.error
      ∧ (execStepFrom env s start a r now).attempts
          = (execStepFrom env s start' a r now').attempts
      ∧ (execStepFrom env s start a r now).delays
          = (execStepFrom env s start' a r now').delays := by
  intro r
  induction r with
  | zero => intro a start now start' now'; simp [execStepFrom]
  | succ r ih =>
    intro a start now start' now'
    simp only [execStepFrom]
    cases env.outcome s.name a with
    | ok => simp
    | err m =>
      by_cases hr : r = 0
      · simp [hr]
      · simp only [if_neg hr]
        rcases ih (a + 1) start (now + env.attemptTime s.name a + 2 ^ a)
            start' (now' + env.attemptTime s.name a + 2 ^ a) with ⟨h1, h2, h3, h4⟩
        exact ⟨h1, h2, by simp [h3], by simp [h4]⟩
    | timeoutExc =>
      by_cases hr : r = 0
      · simp [hr]
      · simp only [if_neg hr]
        rcases ih (a + 1) start (now + env.attemptTime s.name a + 2 ^ a)
            start' (now' + env.attemptTime s.name a + 2 ^ a) with ⟨h1, h2, h3, h4⟩
        exact ⟨h1, h2, by simp [h3], by simp [h4]⟩
    | exc m =>
      by_cases hr : r = 0
      · simp [hr]
      · simp only [if_neg hr]
        rcases ih (a + 1) start (now + env.attemptTime s.name a + 2 ^ a)
            start' (now' + env.attemptTime s.name a + 2 ^ a) with ⟨h1, h2, h3, h4⟩
        exact ⟨h1, h2, by simp [h3], by simp [h4]⟩

/-- A step's success at any clock equals `stepOk`. -/
lemma execSingleStep_success_inv (env : StepEnv) (s : FailoverStep) (now : Nat) :
    (execSingleStep env s now).result.success = stepOk env s :=
  (execStepFrom_time_inv env s s.retry_count 0 now now 0 0).1

/-- A step's returned error at any clock equals its error at clock 0. -/
lemma execSingleStep_error_inv (env : StepEnv) (s : FailoverStep) (now : Nat) :
    (execSingleStep env s now).result.error = (execSingleStep env s 0).result.error :=
  (execStepFrom_time_inv env s s.retry_count 0 now now 0 0).2.1

/-- The error string the final failing attempt contributes to the returned dict:
the handler's reported error, `"Step timeout"` for `asyncio.TimeoutError`, or
the rendered exception. -/
def lastErrorMsg : AttemptOutcome → String
  | .ok => ""
  | .err m => m
  | .timeoutExc => "Step timeout"
  | .exc m => m

/-- The `duration` entry of the returned dict for a final failing attempt: the
elapsed time when the handler reported the failure, absent when it raised. -/
def lastDuration (o : AttemptOutcome) (endTime start : Nat) : Option Nat :=
  match o with
  | .err _ => some (endTime - start)
  | _ => none

/-- Characterisation of the retry loop when every attempt fails: exactly `r`
attempts happen, the backoff sleeps are `2 ^ attempt` for each non-final
attempt, and the returned dict carries the final attempt's error, with a
`duration` entry exactly when the final attempt's handler reported the failure
(rather than raising). -/
lemma execStepFrom_allFail (env : StepEnv) (s : FailoverStep) :
    ∀ r a start now, 0 < r → (∀ k, k < r → env.outcome s.name (a + k) ≠ .ok) →
      (execStepFrom env s start a r now).attempts = r
      ∧ (execStepFrom env s start a r now).delays
          = (List.range (r - 1)).map (fun k => 2 ^ (a + k))
      ∧ (execStepFrom env s start a r now).result.success = false
      ∧ (execStepFrom env s start a r now).result.error
          = some (lastErrorMsg (env.outcome s.name (a + (r - 1))))
      ∧ (execStepFrom env s start a r now).result.duration
          = lastDuration (env.outcome s.name (a + (r - 1)))
              (execStepFrom env s start a r now).endTime start := by
  intro r
  induction r with
  | zero => intro a start now h0; exact absurd h0 (by omega)
  | succ r ih =>
    intro a start now _ hfail
    by_cases hr : r = 0
    · subst hr
      have h0 := hfail 0 (by omega)
      simp only [Nat.add_zero] at h0
      simp only [execStepFrom]
      cases ho : env.outcome s.name a with
      | ok => exact absurd ho h0
      | err m => simp [lastErrorMsg, lastDuration, ho]
      | timeoutExc => simp [lastErrorMsg, lastDuration, ho]
      | exc m => simp [lastErrorMsg, lastDuration, ho]
    · have h0 := hfail 0 (by omega)
      simp only [Nat.add_zero] at h0
      have hfail' : ∀ k, k < r → env.outcome s.name (a + 1 + k) ≠ .ok := by
        intro k hk
        have := hfail (k + 1) (by omega)
        simpa [Nat.add_assoc, Nat.add_comm 1 k] using this
      have hidx : a + 1 + (r - 1) = a + (r + 1 - 1) := by omega
      have hrange : (List.range r).map (fun k => (2:Nat) ^ (a + k))
          = 2 ^ a :: (List.range (r - 1)).map (fun k => (2:Nat) ^ (a + 1 + k)) := by
        have hr' : r = (r - 1) + 1 := by omega
        rw [hr', List.range_succ_eq_map, List.map_cons, List.map_map]
        refine congrArg₂ _ (by rw [Nat.add_zero]) ?_
        refine List.map_congr_left fun k _ => ?_
        simp [Function.comp, Nat.succ_eq_add_one]
        ring_nf
      simp only [execStepFrom]
      cases ho : env.outcome s.name a with
      | ok => exact absurd ho h0
      | err m =>
        simp only [if_neg hr]
        rcases ih (a + 1) start (now + env.attemptTime s.name a + 2 ^ a)
            (by omega) hfail' with ⟨h1, h2, h3, h4, h5⟩
        refine ⟨by simpa using h1, ?_, h3, ?_, ?_⟩
        · simp only [Nat.add_sub_cancel, hrange]
          exact congrArg (List.cons (2 ^ a)) h2
        · rw [← hidx]; exact h4
        · rw [← hidx]; exact h5
      | timeoutExc =>
        simp only [if_neg hr]
        rcases ih (a + 1) start (now + env.attemptTime s.name a + 2 ^ a)
            (by omega) hfail' with ⟨h1, h2, h3, h4, h5⟩
        refine ⟨by simpa using h1, ?_, h3, ?_, ?_⟩
        · simp only [Nat.add_sub_cancel, hrange]
          exact congrArg (List.cons (2 ^ a)) h2
        · rw [← hidx]; exact h4
        · rw [← hidx]; exact h5
      | exc m =>
        simp only [if_neg hr]
        rcases ih (a + 1) start (now + env.attemptTime s.name a + 2 ^ a)
            (by omega) hfail' with ⟨h1, h2, h3, h4, h5⟩
        refine ⟨by simpa using h1, ?_, h3, ?_, ?_⟩
        · simp only [Nat.add_sub_cancel, hrange]
          exact congrArg (List.cons (2 ^ a)) h2
        · rw [← hidx]; exact h4
        · rw [← hidx]; exact h5

/-- Powers of two listed in attempt order are non-decreasing. -/
lemma chain_le_pow_two (m : Nat) :
    List.Chain' (fun x y => x ≤ y) ((List.range m).map (fun k => (2:Nat) ^ k)) := by
  cases m with
  | zero => simp
  | succ n =>
    rw [List.chain'_map, List.chain'_range_succ]
    intro k _
    exact Nat.pow_le_pow_right (by norm_num) (Nat.le_succ k)

/-! ### Lemmas about the step-sequence walk -/

/-- Unfolding `_execute_failover_steps` at a succeeding head step. -/
lemma execFailoverSteps_cons_ok (env : StepEnv) (s : FailoverStep)
    (rest : List FailoverStep) (run : FailoverRun) (now : Nat)
    (h : stepOk env s = true) :
    execFailoverSteps env (s :: rest) run now
      = execFailoverSteps env rest
          { run with
            current_step := some s.name,
            steps_completed := run.steps_completed
              ++ [⟨s.name, (execSingleStep env s now).endTime,
                  (execSingleStep env s now).result.duration⟩] }
          (execSingleStep env s now).endTime := by
  simp only [execFailoverSteps]
  rw [execSingleStep_success_inv, h]
  simp

/-- Unfolding `_execute_failover_steps` at a failing critical head step: the walk
aborts, naming the failed step, and the tail is never touched. -/
lemma execFailoverSteps_cons_fail_crit (env : StepEnv) (s : FailoverStep)
    (rest : List FailoverStep) (run : FailoverRun) (now : Nat)
    (h : stepOk env s = false) (hc : s.critical = true) :
    execFailoverSteps env (s :: rest) run now
      = ({ success := false, error := some ("Critical step failed: " ++ s.name),
           failed_step := some s.name },
         { run with
           current_step := some s.name,
           steps_failed := run.steps_failed
             ++ [⟨s.name, (execSingleStep env s now).endTime,
                 (execSingleStep env s now).result.error⟩] },
         (execSingleStep env s now).endTime) := by
  simp only [execFailoverSteps]
  rw [execSingleStep_success_inv, h, hc]
  simp

/-- Unfolding `_execute_failover_steps` at a failing non-critical head step: the
failure is recorded and the walk continues. -/
lemma execFailoverSteps_cons_fail_noncrit (env : StepEnv) (s : FailoverStep)
    (rest : List FailoverStep) (run : FailoverRun) (now : Nat)
    (h : stepOk env s = false) (hc : s.critical = false) :
    execFailoverSteps env (s :: rest) run now
      = execFailoverSteps env rest
          { run with
            current_step := some s.name,
            steps_failed := run.steps_failed
              ++ [⟨s.name, (execSingleStep env s now).endTime,
                  (execSingleStep env s now).result.error⟩] }
          (execSingleStep env s now).endTime := by
  simp only [execFailoverSteps]
  rw [execSingleStep_success_inv, h, hc]
  simp

/-- Walking a prefix of succeeding steps only appends their names to
`steps_completed` and then continues with the remaining steps. -/
lemma execFailoverSteps_ok_prefix (env : StepEnv) :
    ∀ (pre rest : List FailoverStep) (run : FailoverRun) (now : Nat),
      (∀ p ∈ pre, stepOk env p = true) →
      ∃ run' now',
        execFailoverSteps env (pre ++ rest) run now = execFailoverSteps env rest run' now'
        ∧ run'.steps_completed.map (·.step)
            = run.steps_completed.map (·.step) ++ pre.map (·.name)
        ∧ run'.steps_failed = run.steps_failed := by
  intro pre
  induction pre with
  | nil => intro rest run now _; exact ⟨run, now, rfl, by simp, rfl⟩
  | cons p pre ih =>
    intro rest run now hpre
    have hp : stepOk env p = true := hpre p (List.mem_cons_self _ _)
    have hpre' : ∀ q ∈ pre, stepOk env q = true :=
      fun q hq => hpre q (List.mem_cons_of_mem _ hq)
    rw [List.cons_append, execFailoverSteps_cons_ok env p _ run now hp]
    obtain ⟨run', now', heq, hc, hf⟩ := ih rest
      ({ run with
         current_step := some p.name,
         steps_completed := run.steps_completed
           ++ [⟨p.name, (execSingleStep env p now).endTime,
               (execSingleStep env p now).result.duration⟩] })
      ((execSingleStep env p now).endTime) hpre'
    refine ⟨run', now', heq, ?_, by simpa using hf⟩
    rw [hc]; simp

/-- When every critical step succeeds, the walk returns success, completing the
succeeding steps and recording every failing (necessarily non-critical) step in
`steps_failed` without aborting. -/
lemma execFailoverSteps_crit_ok (env : StepEnv) :
    ∀ (steps : List FailoverStep) (run : FailoverRun) (now : Nat),
      (∀ st ∈ steps, st.critical = true → stepOk env st = true) →
      ∃ run' now',
        execFailoverSteps env steps run now
          = ({ success := true,
               steps_completed_count := some run'.steps_completed.length }, run', now')
        ∧ run'.steps_completed.map (·.step)
            = run.steps_completed.map (·.step)
              ++ ((steps.filter fun st => stepOk env st).map (·.name))
        ∧ run'.steps_failed.map (·.step)
            = run.steps_failed.map (·.step)
              ++ ((steps.filter fun st => !stepOk env st).map (·.name)) := by
  intro steps
  induction steps with
  | nil => intro run now _; exact ⟨run, now, rfl, by simp, by simp⟩
  | cons s rest ih =>
    intro run now hcrit
    have hrest : ∀ st ∈ rest, st.critical = true → stepOk env st = true :=
      fun st hst => hcrit st (List.mem_cons_of_mem _ hst)
    by_cases hok : stepOk env s = true
    · rw [execFailoverSteps_cons_ok env s rest run now hok]
      obtain ⟨run', now', heq, hc, hf⟩ := ih
        ({ run with
           current_step := some s.name,
           steps_completed := run.steps_completed
             ++ [⟨s.name, (execSingleStep env s now).endTime,
                 (execSingleStep env s now).result.duration⟩] })
        ((execSingleStep env s now).endTime) hrest
      refine ⟨run', now', heq, ?_, ?_⟩
      · rw [hc]; simp [List.filter_cons, hok]
      · rw [hf]; simp [List.filter_cons, hok]
    · have hok' : stepOk env s = false := Bool.eq_false_iff.mpr hok
      have hnc : s.critical = false := by
        cases hsc : s.critical with
        | false => rfl
        | true => exact absurd (hcrit s (List.mem_cons_self _ _) hsc) hok
      rw [execFailoverSteps_cons_fail_noncrit env s rest run now hok' hnc]
      obtain ⟨run', now', heq, hc, hf⟩ := ih
        ({ run with
           current_step := some s.name,
           steps_failed := run.steps_failed
             ++ [⟨s.name, (execSingleStep env s now).endTime,
                 (execSingleStep env s now).result.error⟩] })
        ((execSingleStep env s now).endTime) hrest
      refine ⟨run', now', heq, ?_, ?_⟩
      · rw [hc]; simp [List.filter_cons, hok']
      · rw [hf]; simp [List.filter_cons, hok']

/-! ### Trigger-level lemmas -/

/-- A trigger issued while `current_failover` is set returns the
`AlreadyInProgress` failure carrying the stored run's id and leaves the
coordinator state untouched. -/
lemma trigger_busy (env : StepEnv) (direction : String) (steps : List FailoverStep)
    (now : Nat) (c : Coordinator) (r : FailoverRun) (h : c.current_failover = some r) :
    triggerFailover env direction steps now c
      = (⟨false, some "Failover already in progress", some r.id, none, none⟩, c, now) := by
  cases c with
  | mk cf =>
    cases cf with
    | none => simp at h
    | some r' =>
      simp only [Option.some.injEq] at h
      subst h
      rfl

/-- A trigger issued with no stored run always leaves a finalized run in
`current_failover`, whose status is `"completed"` on success and `"failed"`
otherwise. -/
lemma trigger_from_none (env : StepEnv) (direction : String)
    (steps : List FailoverStep) (now : Nat) :
    ∃ run, (triggerFailover env direction steps now ⟨none⟩).2.1.current_failover = some run
      ∧ (run.status = "completed" ∨ run.status = "failed")
      ∧ run.status ≠ "in_progress" := by
  simp only [triggerFailover, finalizeRun]
  cases hs : (execFailoverSteps env steps
      { id := direction ++ "_" ++ toString now, ftype := direction,
        start_time := now } now).1.success
  · exact ⟨_, rfl, by simp [hs], by simp [hs]⟩
  · exact ⟨_, rfl, by simp [hs], by simp [hs]⟩

/-- While `current_failover` is set, a whole serialised sequence of trigger
attempts returns only `AlreadyInProgress` failures and never changes state. -/
lemma runAttempts_busy (env : StepEnv) (direction : String) (steps : List FailoverStep) :
    ∀ (ts : List Nat) (c : Coordinator) (r : FailoverRun),
      c.current_failover = some r →
      runAttempts env direction steps ts c
        = (ts.map fun _ =>
            (⟨false, some "Failover already in progress", some r.id, none, none⟩ :
              TriggerResult), c) := by
  intro ts
  induction ts with
  | nil => intro c r _; rfl
  | cons t ts ih =>
    intro c r h
    simp only [runAttempts, List.map_cons]
    rw [trigger_busy env direction steps t c r h]
    rw [ih c r h]

/-- While the lock is held by the in-flight run, the late trigger attempt has no
enabled step of its own: every configuration it can reach alone is the initial
one. -/
lemma lateStuck (r0 : FailoverRun) :
    ∀ c', Relation.ReflTransGen LateStep ⟨true, some r0, .waiting⟩ c' →
      c' = ⟨true, some r0, .waiting⟩ := by
  intro c' h
  induction h with
  | refl => rfl
  | tail _ hstep ih =>
    subst ih
    cases hstep

/-! ### Claim theorems -/

/-- C10: every invocation of the engine's `_execute_failover` terminates with
`failover_in_progress = False` (set on entry, reset in the `finally` block on
all exit paths, exceptions included), and on an unexpected exception during
failover execution `current_state` is set to `ERROR` rather than left as
`FAILOVER_IN_PROGRESS`. -/
theorem c10_flag_cleared_and_error_state (e : EngineState) (target : String)
    (out : CoordOutcome) (now : Nat) (d : ℚ) :
    (executeFailover e target out now d).failover_in_progress = false
    ∧ (∀ m, out = .raises m →
        (executeFailover e target out now d).current_state = DrState.error) := by
  constructor
  · cases out with
    | returns s err => cases s <;> simp [executeFailover, recordFailoverMetrics]
    | raises m => simp [executeFailover, recordFailoverMetrics]
  · intro m hm
    subst hm
    simp [executeFailover, recordFailoverMetrics]

/-- Witness for C10 at a concrete engine state and a raised exception. -/
theorem c10_flag_cleared_and_error_state_witness :
    (executeFailover engineA "gcp" (.raises "boom") 0 0).failover_in_progress = false
    ∧ (∀ m, (CoordOutcome.raises "boom" : CoordOutcome) = .raises m →
        (executeFailover engineA "gcp" (.raises "boom") 0 0).current_state
          = DrState.error) :=
  c10_flag_cleared_and_error_state engineA "gcp" (.raises "boom") 0 0

/-- C2: for every failover run in which some critical step exhausts all its
retries, the trigger result has `success = False` and identifies the failed
step by name, the archived run has status `"failed"` with only the preceding
steps completed and only the failed step in `steps_failed` (later steps are
never executed), and the engine reverts `current_state` to its pre-run value
(not left as `FAILOVER_IN_PROGRESS`) with the in-progress flag cleared. -/
theorem c2_critical_step_abort (env : StepEnv) (direction : String)
    (pre suf : List FailoverStep) (s : FailoverStep) (now : Nat)
    (hpre : ∀ p ∈ pre, stepOk env p = true)
    (hs : stepOk env s = false) (hcrit : s.critical = true) :
    (triggerFailover env direction (pre ++ s :: suf) now ⟨none⟩).1.success = false
    ∧ (triggerFailover env direction (pre ++ s :: suf) now ⟨none⟩).1.error
        = some ("Critical step failed: " ++ s.name)
    ∧ (triggerFailover env direction (pre ++ s :: suf) now ⟨none⟩).1.failed_step
        = some s.name
    ∧ (∃ run, (triggerFailover env direction (pre ++ s :: suf) now ⟨none⟩).2.1.current_failover
          = some run
        ∧ run.status = "failed"
        ∧ run.steps_completed.map (·.step) = pre.map (·.name)
        ∧ run.steps_failed.map (·.step) = [s.name])
    ∧ (∀ (e : EngineState) (target : String) (err : Option String) (t : Nat) (d : ℚ),
        (executeFailover e target (.returns false err) t d).current_state = e.current_state
        ∧ (executeFailover e target (.returns false err) t d).failover_in_progress
            = false) := by
  obtain ⟨run', now', heq, hc, hf⟩ :=
    execFailoverSteps_ok_prefix env pre (s :: suf)
      { id := direction ++ "_" ++ toString now, ftype := direction, start_time := now }
      now hpre
  have hstep := execFailoverSteps_cons_fail_crit env s suf run' now' hs hcrit
  have htrig : triggerFailover env direction (pre ++ s :: suf) now ⟨none⟩
      = (⟨false, some ("Critical step failed: " ++ s.name), none, none, some s.name⟩,
         ⟨some (finalizeRun
           { run' with
             current_step := some s.name,
             steps_failed := run'.steps_failed
               ++ [⟨s.name, (execSingleStep env s now').endTime,
                   (execSingleStep env s now').result.error⟩] }
           false ((execSingleStep env s now').endTime))⟩,
         (execSingleStep env s now').endTime) := by
    simp only [triggerFailover]
    rw [heq, hstep]
  simp only at hc hf
  refine ⟨by rw [htrig], by rw [htrig], by rw [htrig], ?_, ?_⟩
  · refine ⟨_, by rw [htrig], by simp [finalizeRun], ?_, ?_⟩
    · simp only [finalizeRun]
      simpa using hc
    · simp only [finalizeRun]
      simp only [List.map_append]
      rw [hf]
      simp
  · intro e target err t d
    exact ⟨by simp [executeFailover, recordFailoverMetrics],
           by simp [executeFailover, recordFailoverMetrics]⟩

/-- Witness for C2: under `envMixed`, the run `[s1, flaky(critical), s2]`
aborts at the critical `"flaky"` step after `s1` completed; `s2` never runs. -/
theorem c2_critical_step_abort_witness :
    (triggerFailover envMixed "azure_to_gcp" ([stepS1] ++ stepFlakyCrit :: [stepS2]) 0
        ⟨none⟩).1.success = false
    ∧ (triggerFailover envMixed "azure_to_gcp" ([stepS1] ++ stepFlakyCrit :: [stepS2]) 0
        ⟨none⟩).1.error = some ("Critical step failed: " ++ stepFlakyCrit.name)
    ∧ (triggerFailover envMixed "azure_to_gcp" ([stepS1] ++ stepFlakyCrit :: [stepS2]) 0
        ⟨none⟩).1.failed_step = some stepFlakyCrit.name
    ∧ (∃ run, (triggerFailover envMixed "azure_to_gcp"
          ([stepS1] ++ stepFlakyCrit :: [stepS2]) 0 ⟨none⟩).2.1.current_failover
          = some run
        ∧ run.status = "failed"
        ∧ run.steps_completed.map (·.step) = [stepS1].map (·.name)
        ∧ run.steps_failed.map (·.step) = [stepFlakyCrit.name])
    ∧ (∀ (e : EngineState) (target : String) (err : Option String) (t : Nat) (d : ℚ),
        (executeFailover e target (.returns false err) t d).current_state = e.current_state
        ∧ (executeFailover e target (.returns false err) t d).failover_in_progress
            = false) :=
  c2_critical_step_abort envMixed "azure_to_gcp" [stepS1] [stepS2] stepFlakyCrit 0
    (by decide) (by decide) (by decide)

/-- C5 (amended): for a step with `retry_count = n > 0` whose every attempt
fails, exactly `n` handler invocations occur (attempts 0..n-1), the
inter-attempt sleeps are `2 ^ attempt` seconds and hence monotonically
non-decreasing, and the step returns failure carrying the final attempt's
error; the elapsed `duration` is included only when the final attempt's
handler returned a failure dict — when it raised (exception or timeout) the
returned dict has no duration entry. -/
theorem c5_retry_backoff_amended (env : StepEnv) (s : FailoverStep) (t : Nat)
    (hn : 0 < s.retry_count)
    (hfail : ∀ k, k < s.retry_count → env.outcome s.name k ≠ .ok) :
    (execSingleStep env s t).attempts = s.retry_count
    ∧ (execSingleStep env s t).delays
        = (List.range (s.retry_count - 1)).map (fun k => 2 ^ k)
    ∧ List.Chain' (fun x y => x ≤ y) (execSingleStep env s t).delays
    ∧ (execSingleStep env s t).result.success = false
    ∧ (execSingleStep env s t).result.error
        = some (lastErrorMsg (env.outcome s.name (s.retry_count - 1)))
    ∧ (execSingleStep env s t).result.duration
        = lastDuration (env.outcome s.name (s.retry_count - 1))
            (execSingleStep env s t).endTime t := by
  have h := execStepFrom_allFail env s s.retry_count 0 t t hn
    (fun k hk => by simpa using hfail k hk)
  simp only [Nat.zero_add] at h
  obtain ⟨h1, h2, h3, h4, h5⟩ := h
  have hdel : (execSingleStep env s t).delays
      = (List.range (s.retry_count - 1)).map (fun k => 2 ^ k) := h2
  refine ⟨h1, hdel, ?_, h3, h4, h5⟩
  rw [hdel]
  exact chain_le_pow_two _

/-- C5 counterexample: under an oracle where every attempt raises an exception
`"boom"`, the three-retry step makes all 3 attempts and returns failure with
the last error, but the returned dict has NO `duration` entry — contradicting
the claim that after the last failing attempt the step returns failure with
the last error AND the elapsed duration. -/
theorem c5_counterexample_no_duration_on_exception :
    (execSingleStep envExcAll stepS1 0).attempts = 3
    ∧ (execSingleStep envExcAll stepS1 0).result.success = false
    ∧ (execSingleStep envExcAll stepS1 0).result.error = some "boom"
    ∧ (execSingleStep envExcAll stepS1 0).result.duration = none := by
  refine ⟨rfl, rfl, rfl, rfl⟩

/-- Witness for C5 (amended) at a concrete oracle whose attempts all return
failure dicts with error `"nope"`. -/
theorem c5_retry_backoff_amended_witness :
    (execSingleStep envErrAll stepS1 5).attempts = stepS1.retry_count
    ∧ (execSingleStep envErrAll stepS1 5).delays
        = (List.range (stepS1.retry_count - 1)).map (fun k => 2 ^ k)
    ∧ List.Chain' (fun x y => x ≤ y) (execSingleStep envErrAll stepS1 5).delays
    ∧ (execSingleStep envErrAll stepS1 5).result.success = false
    ∧ (execSingleStep envErrAll stepS1 5).result.error
        = some (lastErrorMsg (envErrAll.outcome stepS1.name (stepS1.retry_count - 1)))
    ∧ (execSingleStep envErrAll stepS1 5).result.duration
        = lastDuration (envErrAll.outcome stepS1.name (stepS1.retry_count - 1))
            (execSingleStep envErrAll stepS1 5).endTime 5 :=
  c5_retry_backoff_amended envErrAll stepS1 5 (by decide) (by decide)

/-- C8: for every failover run in which every critical step succeeds, the
trigger returns success, the archived run has status `"completed"` with each
failing (necessarily non-critical) step recorded in `steps_failed` without
aborting the sequence, and on the success result the engine sets the new
active environment. -/
theorem c8_noncritical_tolerance (env : StepEnv) (direction : String)
    (steps : List FailoverStep) (now : Nat)
    (hcrit : ∀ st ∈ steps, st.critical = true → stepOk env st = true) :
    (triggerFailover env direction steps now ⟨none⟩).1.success = true
    ∧ (∃ run, (triggerFailover env direction steps now ⟨none⟩).2.1.current_failover
          = some run
        ∧ run.status = "completed"
        ∧ run.steps_completed.map (·.step)
            = ((steps.filter fun st => stepOk env st).map (·.name))
        ∧ run.steps_failed.map (·.step)
            = ((steps.filter fun st => !stepOk env st).map (·.name)))
    ∧ (∀ (e : EngineState) (t : Nat) (d : ℚ),
        (executeFailover e "gcp" (.returns true none) t d).current_state
          = DrState.activeGcp)
    ∧ (∀ (e : EngineState) (t : Nat) (d : ℚ),
        (executeFailover e "azure" (.returns true none) t d).current_state
          = DrState.activeAzure) := by
  obtain ⟨run', now', heq, hc, hf⟩ :=
    execFailoverSteps_crit_ok env steps
      { id := direction ++ "_" ++ toString now, ftype := direction, start_time := now }
      now hcrit
  have htrig : triggerFailover env direction steps now ⟨none⟩
      = (⟨true, none, none, some run'.steps_completed.length, none⟩,
         ⟨some (finalizeRun run' true now')⟩, now') := by
    simp only [triggerFailover]
    rw [heq]
  simp only at hc hf
  refine ⟨by rw [htrig], ?_, ?_, ?_⟩
  · refine ⟨_, by rw [htrig], by simp [finalizeRun], ?_, ?_⟩
    · simp only [finalizeRun]
      simpa using hc
    · simp only [finalizeRun]
      simpa using hf
  · intro e t d
    simp [executeFailover, recordFailoverMetrics]
  · intro e t d
    simp [executeFailover, recordFailoverMetrics]

/-- Witness for C8: under `envMixed` the sequence
`[s1, flaky(non-critical), s2]` completes even though `"flaky"` fails all its
retries; the failure is recorded in `steps_failed`. -/
theorem c8_noncritical_tolerance_witness :
    (triggerFailover envMixed "azure_to_gcp" [stepS1, stepFlakyNC, stepS2] 0
        ⟨none⟩).1.success = true
    ∧ (∃ run, (triggerFailover envMixed "azure_to_gcp" [stepS1, stepFlakyNC, stepS2] 0
          ⟨none⟩).2.1.current_failover = some run
        ∧ run.status = "completed"
        ∧ run.steps_completed.map (·.step)
            = (([stepS1, stepFlakyNC, stepS2].filter
                fun st => stepOk envMixed st).map (·.name))
        ∧ run.steps_failed.map (·.step)
            = (([stepS1, stepFlakyNC, stepS2].filter
                fun st => !stepOk envMixed st).map (·.name)))
    ∧ (∀ (e : EngineState) (t : Nat) (d : ℚ),
        (executeFailover e "gcp" (.returns true none) t d).current_state
          = DrState.activeGcp)
    ∧ (∀ (e : EngineState) (t : Nat) (d : ℚ),
        (executeFailover e "azure" (.returns true none) t d).current_state
          = DrState.activeAzure) :=
  c8_noncritical_tolerance envMixed "azure_to_gcp" [stepS1, stepFlakyNC, stepS2] 0
    (by decide)

/-- C9: a finished trigger always leaves the finalized run stored in
`current_failover` (with a terminal, non-in-progress status); while any run —
in particular a finished one — is stored, every new trigger of either
direction returns `{success: False, error: "Failover already in progress"}`
without touching state; only `_cleanup_completed_failovers` (run by
`start_coordinator` on its 30-second cycle) clears the slot, and it clears
exactly the terminal statuses, leaving `"in_progress"` runs in place. -/
theorem c9_stale_run_blocks_new_triggers (env : StepEnv) (direction : String)
    (steps : List FailoverStep) (now t : Nat) (c : Coordinator) (run : FailoverRun)
    (hc : c.current_failover = some run)
    (hfin : run.status = "completed" ∨ run.status = "failed"
      ∨ run.status = "error" ∨ run.status = "timeout") :
    (∃ r, (triggerFailover env direction steps now ⟨none⟩).2.1.current_failover = some r
        ∧ r.status ≠ "in_progress")
    ∧ triggerFailover env direction steps t c
        = (⟨false, some "Failover already in progress", some run.id, none, none⟩, c, t)
    ∧ cleanupCompletedFailovers c = ⟨none⟩
    ∧ (∀ r : FailoverRun, r.status = "in_progress" →
        cleanupCompletedFailovers ⟨some r⟩ = ⟨some r⟩) := by
  refine ⟨?_, trigger_busy env direction steps t c run hc, ?_, ?_⟩
  · obtain ⟨r, h1, _, h3⟩ := trigger_from_none env direction steps now
    exact ⟨r, h1, h3⟩
  · cases c with
    | mk cf =>
      simp only [Coordinator.current_failover] at hc
      subst hc
      simp only [cleanupCompletedFailovers]
      rcases hfin with h | h | h | h <;> rw [h] <;> rfl
  · intro r hr
    simp only [cleanupCompletedFailovers]
    rw [hr]
    rfl

/-- Witness for C9 at a concrete coordinator holding a completed run. -/
theorem c9_stale_run_blocks_new_triggers_witness :
    (∃ r, (triggerFailover envMixed "azure_to_gcp" [stepS1] 0 ⟨none⟩).2.1.current_failover
        = some r ∧ r.status ≠ "in_progress")
    ∧ triggerFailover envMixed "azure_to_gcp" [stepS1] 1
        ⟨some { runDemo with status := "completed" }⟩
        = (⟨false, some "Failover already in progress",
            some { runDemo with status := "completed" }.id, none, none⟩,
           ⟨some { runDemo with status := "completed" }⟩, 1)
    ∧ cleanupCompletedFailovers ⟨some { runDemo with status := "completed" }⟩ = ⟨none⟩
    ∧ (∀ r : FailoverRun, r.status = "in_progress" →
        cleanupCompletedFailovers ⟨some r⟩ = ⟨some r⟩) :=
  c9_stale_run_blocks_new_triggers envMixed "azure_to_gcp" [stepS1] 0 1
    ⟨some { runDemo with status := "completed" }⟩ { runDemo with status := "completed" }
    rfl (Or.inl rfl)

/-- C1 (amended): the `failover_lock` serialises trigger bodies; a trigger that
acts while `current_failover` is set returns the `AlreadyInProgress` failure
with the active run's id, creating no run and leaving the active run
unmodified; among a serialised sequence of trigger attempts starting with no
stored run, exactly the first one starts a run; and a trigger arriving while
the active run's trigger holds the lock receives its `AlreadyInProgress`
answer only after the holder releases the lock at the end of the run (the
lock-wait model: release, acquire, then return busy). -/
theorem c1_single_flight_amended (env : StepEnv) (direction : String)
    (steps : List FailoverStep) (now t : Nat) (ts : List Nat) (c : Coordinator)
    (r r0 : FailoverRun) (h : c.current_failover = some r) :
    triggerFailover env direction steps now c
      = (⟨false, some "Failover already in progress", some r.id, none, none⟩, c, now)
    ∧ ((runAttempts env direction steps (t :: ts) ⟨none⟩).1.filter
        (fun res => res.current_failover_id.isNone)).length = 1
    ∧ Relation.ReflTransGen SysStep ⟨true, some r0, .waiting⟩
        ⟨false, some r0,
         .finished ⟨false, some "Failover already in progress", some r0.id, none, none⟩⟩ := by
  refine ⟨trigger_busy env direction steps now c r h, ?_, ?_⟩
  · simp only [runAttempts]
    obtain ⟨runF, hrunF, _, _⟩ := trigger_from_none env direction steps t
    rw [runAttempts_busy env direction steps ts _ runF hrunF]
    have hfirst : (triggerFailover env direction steps t ⟨none⟩).1.current_failover_id
        = none := rfl
    have hrest : ∀ l : List Nat,
        ((l.map fun _ =>
            (⟨false, some "Failover already in progress", some runF.id, none, none⟩ :
              TriggerResult)).filter
          (fun res => res.current_failover_id.isNone)) = [] := by
      intro l
      induction l with
      | nil => rfl
      | cons x xs ih => simp [ih]
    simp [List.filter_cons, hfirst, hrest]
  · exact Relation.ReflTransGen.head (SysStep.release _ _)
      (Relation.ReflTransGen.head (SysStep.late (LateStep.acquire _))
        (Relation.ReflTransGen.single (SysStep.late (LateStep.finishBusy r0))))

/-- C1 counterexample (refutes "returns ... immediately and without
blocking"): while the in-flight run's trigger holds the `failover_lock` —
which it holds for the whole run, since `async with self.failover_lock`
encloses the entire step execution — a concurrent trigger attempt has no
enabled step of its own and cannot reach any returned result, AlreadyInProgress
included: it blocks until the holder releases the lock. -/
theorem c1_counterexample_blocked_until_release :
    ¬ ∃ conf : LateConf,
        Relation.ReflTransGen LateStep ⟨true, some runDemo, .waiting⟩ conf
        ∧ ∃ res, conf.phase = .finished res := by
  rintro ⟨conf, hreach, res, hres⟩
  rw [lateStuck runDemo conf hreach] at hres
  exact absurd hres (by simp)

/-- Witness for C1 (amended) at a concrete busy coordinator. -/
theorem c1_single_flight_amended_witness :
    triggerFailover envMixed "azure_to_gcp" [stepS1] 7 ⟨some runDemo⟩
      = (⟨false, some "Failover already in progress", some runDemo.id, none, none⟩,
         ⟨some runDemo⟩, 7)
    ∧ ((runAttempts envMixed "azure_to_gcp" [stepS1] (0 :: [1, 2]) ⟨none⟩).1.filter
        (fun res => res.current_failover_id.isNone)).length = 1
    ∧ Relation.ReflTransGen SysStep ⟨true, some runDemo, .waiting⟩
        ⟨false, some runDemo,
         .finished ⟨false, some "Failover already in progress", some runDemo.id,
           none, none⟩⟩ :=
  c1_single_flight_amended envMixed "azure_to_gcp" [stepS1] 7 0 [1, 2]
    ⟨some runDemo⟩ runDemo runDemo rfl

/-- C3 (amended): the background watchdog marks a run `"timeout"` exactly when
its status is `"in_progress"` and it started strictly more than 30 minutes
ago, and marking is its only effect; the mark by itself does not fail the run
or touch the engine's `DrState` — when the trigger later finalizes the run,
the status is overwritten to `"completed"`/`"failed"` purely from the step
results, whatever it was before. -/
theorem c3_run_timeout_amended (c : Coordinator) (now : Nat) (r : FailoverRun)
    (h : c.current_failover = some r) :
    (r.status = "in_progress" → 1800 < now - r.start_time →
      monitorActiveFailovers c now = ⟨some { r with status := "timeout" }⟩)
    ∧ (r.status ≠ "in_progress" → monitorActiveFailovers c now = c)
    ∧ (now - r.start_time ≤ 1800 → monitorActiveFailovers c now = c)
    ∧ (∀ (run : FailoverRun) (success : Bool) (tf : Nat),
        (finalizeRun run success tf).status
          = if success then "completed" else "failed") := by
  cases c with
  | mk cf =>
    simp only [Coordinator.current_failover] at h
    subst h
    refine ⟨?_, ?_, ?_, ?_⟩
    · intro h1 h2
      simp [monitorActiveFailovers, h1, h2]
    · intro h1
      simp [monitorActiveFailovers, h1]
    · intro h1
      simp only [monitorActiveFailovers]
      rw [if_neg]
      rintro ⟨-, h2⟩
      omega
    · intro run success tf
      simp [finalizeRun]

/-- C3 counterexample (refutes "this timeout is treated as a run failure and
DrState is reverted"): a run started at clock 0 is marked `"timeout"` by the
watchdog at clock 1900, yet when its steps succeed the trigger finalization
overwrites the mark with `"completed"`, and the engine — acting only on the
success flag — advances `current_state` to the new environment instead of
reverting it to the pre-run `ACTIVE_AZURE`. -/
theorem c3_counterexample_timeout_overwritten :
    (monitorActiveFailovers ⟨some runDemo⟩ 1900).current_failover
        = some { runDemo with status := "timeout" }
    ∧ (finalizeRun { runDemo with status := "timeout" } true 2000).status = "completed"
    ∧ (executeFailover engineA "gcp" (.returns true none) 2000 2000).current_state
        = DrState.activeGcp
    ∧ engineA.current_state = DrState.activeAzure := by
  refine ⟨by decide, rfl, ?_, rfl⟩
  simp [executeFailover, recordFailoverMetrics]

/-- Witness for C3 (amended) at a concrete coordinator holding `runDemo`. -/
theorem c3_run_timeout_amended_witness :
    ((runDemo.status = "in_progress" → 1800 < 1900 - runDemo.start_time →
      monitorActiveFailovers ⟨some runDemo⟩ 1900
        = ⟨some { runDemo with status := "timeout" }⟩)
    ∧ (runDemo.status ≠ "in_progress" →
        monitorActiveFailovers ⟨some runDemo⟩ 1900 = ⟨some runDemo⟩)
    ∧ (1900 - runDemo.start_time ≤ 1800 →
        monitorActiveFailovers ⟨some runDemo⟩ 1900 = ⟨some runDemo⟩)
    ∧ (∀ (run : FailoverRun) (success : Bool) (tf : Nat),
        (finalizeRun run success tf).status
          = if success then "completed" else "failed")) :=
  c3_run_timeout_amended ⟨some runDemo⟩ 1900 runDemo rfl

/-- C6 (amended): the decision evaluation is a pure function of the engine
fields it reads — `current_state`, `failover_in_progress`,
`avg_failover_time` and `rto_target` — together with the health snapshot: two
engine states agreeing on those fields produce identical decisions on every
input, whatever their histories, checkpoints or metadata otherwise are.
Identical `(OverallHealth, DrState)` alone do not suffice, because
`estimated_rto` reads the mutable failover-history average. -/
theorem c6_decision_determinism_amended (e1 e2 : EngineState) (h : HealthStatus)
    (h1 : e1.current_state = e2.current_state)
    (h2 : e1.failover_in_progress = e2.failover_in_progress)
    (h3 : e1.avg_failover_time = e2.avg_failover_time)
    (h4 : e1.rto_target = e2.rto_target) :
    evaluateFailoverDecision e1 h = evaluateFailoverDecision e2 h := by
  have hest : estimateFailoverTime e1 = estimateFailoverTime e2 := by
    simp [estimateFailoverTime, h3, h4]
  simp only [evaluateFailoverDecision, h1, h2, hest]

/-- C6 counterexample (refutes "identical `(OverallHealth, DrState)` inputs
always return an identical decision / no hidden mutable state"): two engine
states with the same `current_state` and `failover_in_progress` but different
failover histories evaluate the same degraded health snapshot to different
decisions — `estimated_rto` is 300 (the RTO target) with no history but 120
(the stored average) after one successful 120-second failover. -/
theorem c6_counterexample_history_changes_decision :
    engineA.current_state = engineB.current_state
    ∧ engineA.failover_in_progress = engineB.failover_in_progress
    ∧ (evaluateFailoverDecision engineA healthLowAzure).estimated_rto = 300
    ∧ (evaluateFailoverDecision engineB healthLowAzure).estimated_rto = 120
    ∧ evaluateFailoverDecision engineA healthLowAzure
        ≠ evaluateFailoverDecision engineB healthLowAzure := by
  have hA : evaluateFailoverDecision engineA healthLowAzure
      = { should_failover := true, target_environment := some "gcp",
          reason := some (.fr .azureServiceDegradation), confidence_score := 9/10,
          estimated_rto := 300 } := by
    norm_num [evaluateFailoverDecision, engineA, healthLowAzure,
      detectCriticalFailures, estimateFailoverTime]
  have hB : evaluateFailoverDecision engineB healthLowAzure
      = { should_failover := true, target_environment := some "gcp",
          reason := some (.fr .azureServiceDegradation), confidence_score := 9/10,
          estimated_rto := 120 } := by
    norm_num [evaluateFailoverDecision, engineB, healthLowAzure,
      detectCriticalFailures, estimateFailoverTime]
  refine ⟨rfl, rfl, by rw [hA], by rw [hB], ?_⟩
  rw [hA, hB]
  simp

/-- Witness for C6 (amended): `engineC` differs from `engineA` in history,
counters and checkpoints but agrees on the read fields, so the decisions
coincide. -/
theorem c6_decision_determinism_amended_witness :
    evaluateFailoverDecision engineA healthLowAzure
      = evaluateFailoverDecision engineC healthLowAzure :=
  c6_decision_determinism_amended engineA engineC healthLowAzure rfl rfl rfl rfl

/-- C7 (amended): rollback is suppressed only in `ACTIVE_AZURE` (the
primary-active state).  In `ACTIVE_GCP` (failed over), when no critical
failure or replication-lag degradation pre-empts the evaluation and Azure has
`overall_score > 0.95`, SQL MI and AKS available and a healthy region, the
decision signals rollback with confidence exactly 0.9; and in `ACTIVE_AZURE`
no rollback is ever signalled.  (States other than `ACTIVE_AZURE` and
`ACTIVE_GCP` also signal rollback under the same conditions — see the
counterexample.) -/
theorem c7_rollback_eligibility_amended (e : EngineState) (h : HealthStatus)
    (hflag : e.failover_in_progress = false)
    (hstate : e.current_state = DrState.activeGcp)
    (hg1 : ¬ h.gcp.overall_score < 1/2)
    (hg2 : h.gcp.sql_available = true)
    (hg3 : h.gcp.region_status ≠ "outage")
    (hg4 : ¬ h.gcp.network_latency > 500)
    (hlag : ¬ h.striim.replication_lag_seconds > 30)
    (ha1 : h.azure.overall_score > 95/100)
    (ha2 : h.azure.sql_available = true)
    (ha3 : h.azure.cluster_available = true)
    (ha4 : h.azure.region_status = "healthy") :
    evaluateFailoverDecision e h
      = { should_rollback := true, reason := some .primaryEnvironmentRecovered,
          confidence_score := 9/10 }
    ∧ (∀ (e' : EngineState) (h' : HealthStatus),
        e'.current_state = DrState.activeAzure →
        (evaluateFailoverDecision e' h').should_rollback = false) := by
  constructor
  · have hcf : detectCriticalFailures e.current_state h = none := by
      rw [hstate]
      simp only [detectCriticalFailures]
      simp only [reduceCtorEq, if_false]
      rw [if_neg hg1, hg2]
      simp only [Bool.not_true, Bool.false_eq_true, if_false]
      rw [if_neg hg3, if_neg hg4]
    have hpd : detectPerformanceDegradation h = none := by
      simp only [detectPerformanceDegradation]
      rw [if_neg hlag]
    have hrb : evaluateRollbackConditions e.current_state h
        = some (.primaryEnvironmentRecovered, 9/10) := by
      rw [hstate]
      simp only [evaluateRollbackConditions, reduceCtorEq, if_false]
      rw [if_pos ⟨ha1, ha2, ha3, ha4⟩]
    simp only [evaluateFailoverDecision, hflag, Bool.false_eq_true, if_false,
      hcf, hpd, hrb]
  · intro e' h' hs'
    have hrb0 : evaluateRollbackConditions e'.current_state h' = none := by
      rw [hs']
      simp [evaluateRollbackConditions]
    by_cases hf : e'.failover_in_progress
    · simp [evaluateFailoverDecision, hf]
    · simp only [evaluateFailoverDecision, hf, Bool.false_eq_true, if_false]
      cases hcf' : detectCriticalFailures e'.current_state h' with
      | some p => simp
      | none =>
        cases hpd' : detectPerformanceDegradation h' with
        | some p =>
          obtain ⟨sev, lag, conf⟩ := p
          by_cases hsev : sev = "critical" <;> simp [hsev, hrb0]
        | none => simp [hrb0]

/-- C7 counterexample (refutes "in any state other than ACTIVE_SECONDARY no
rollback is signalled"): the code only skips rollback evaluation in
`ACTIVE_AZURE`, so in `MAINTENANCE` the same recovered-primary conditions
produce a rollback decision with confidence 0.9. -/
theorem c7_counterexample_rollback_in_maintenance :
    engineMaint.current_state = DrState.maintenance
    ∧ engineMaint.current_state ≠ DrState.activeGcp
    ∧ (evaluateFailoverDecision engineMaint healthRecovered).should_rollback = true
    ∧ (evaluateFailoverDecision engineMaint healthRecovered).confidence_score = 9/10 := by
  have hcf : detectCriticalFailures DrState.maintenance healthRecovered = none := by
    simp only [detectCriticalFailures, reduceCtorEq, if_false, healthRecovered]
    norm_num
    intro h
    exact absurd h (by decide)
  have hpd : detectPerformanceDegradation healthRecovered = none := by
    simp only [detectPerformanceDegradation, healthRecovered]
    norm_num
  have hrb : evaluateRollbackConditions DrState.maintenance healthRecovered
      = some (.primaryEnvironmentRecovered, 9/10) := by
    simp only [evaluateRollbackConditions, reduceCtorEq, if_false]
    rw [if_pos]
    exact ⟨by norm_num [healthRecovered], rfl, rfl, rfl⟩
  have hd : evaluateFailoverDecision engineMaint healthRecovered
      = { should_rollback := true, reason := some .primaryEnvironmentRecovered,
          confidence_score := 9/10 } := by
    simp only [evaluateFailoverDecision, engineMaint, Bool.false_eq_true, if_false,
      hcf, hpd, hrb]
  refine ⟨rfl, by decide, by rw [hd], by rw [hd]⟩

/-- Witness for C7 (amended) at a concrete failed-over engine and recovered
health snapshot. -/
theorem c7_rollback_eligibility_amended_witness :
    evaluateFailoverDecision engineGcp healthRecovered
      = { should_rollback := true, reason := some .primaryEnvironmentRecovered,
          confidence_score := 9/10 }
    ∧ (∀ (e' : EngineState) (h' : HealthStatus),
        e'.current_state = DrState.activeAzure →
        (evaluateFailoverDecision e' h').should_rollback = false) :=
  c7_rollback_eligibility_amended engineGcp healthRecovered rfl rfl
    (by norm_num [healthRecovered]) rfl (by decide) (by norm_num [healthRecovered])
    (by norm_num [healthRecovered]) (by norm_num [healthRecovered]) rfl rfl rfl

/-- The closed form of the aggregation over the five always-present checks. -/
lemma overallHealthScore_formula (a b c d e : ℚ) :
    overallHealthScore (healthResults a b c d e)
      = ((3/10) * (a + b + c) + (1/10) * (d + e)) / (11/10) := by
  have w1 : serviceWeight "azure_sql_mi" = 3/10 := rfl
  have w2 : serviceWeight "gcp_cloud_sql" = 3/10 := rfl
  have w3 : serviceWeight "striim_cdc" = 3/10 := rfl
  have w4 : serviceWeight "azure_aks" = 1/10 := rfl
  have w5 : serviceWeight "gcp_gke" = 1/10 := rfl
  simp only [overallHealthScore, healthResults, List.foldl, w1, w2, w3, w4, w5,
    List.length_cons, List.length_nil, critical_services]
  norm_num
  ring_nf

/-- C4: the cloud function's `overall_health_score` is the weighted sum of the
per-service scores — weight 0.3 for each of the three critical services
(primary DB, secondary DB, replication pipeline), 0.1 for each of the two
others — normalised by the total weight of the sources present (all five
checks return a result on every path, so the total present weight is 1.1); in
particular all sources at 1.0 give overall 1.0, and zeroing any single
critical source lowers the overall score by exactly its normalised weight
0.3/1.1 (hence by at least that much). -/
theorem c4_aggregation_weighting (a b c d e : ℚ) :
    overallHealthScore (healthResults a b c d e)
      = ((3/10) * (a + b + c) + (1/10) * (d + e)) / (11/10)
    ∧ overallHealthScore (healthResults 1 1 1 1 1) = 1
    ∧ overallHealthScore (healthResults 1 b c d e)
        - overallHealthScore (healthResults 0 b c d e) = (3/10) / (11/10)
    ∧ overallHealthScore (healthResults a 1 c d e)
        - overallHealthScore (healthResults a 0 c d e) = (3/10) / (11/10)
    ∧ overallHealthScore (healthResults a b 1 d e)
        - overallHealthScore (healthResults a b 0 d e) = (3/10) / (11/10) := by
  refine ⟨overallHealthScore_formula a b c d e, ?_, ?_, ?_, ?_⟩
  · rw [overallHealthScore_formula]
    norm_num
  · rw [overallHealthScore_formula, overallHealthScore_formula]
    ring
  · rw [overallHealthScore_formula, overallHealthScore_formula]
    ring
  · rw [overallHealthScore_formula, overallHealthScore_formula]
    ring

end DROrch
